import Mathlib

/-!
Verification of the `filter-surrounded-by-spaces` ansible-lint rule
(`src/ansiblelint/rules/filter_surrounded_by_spaces.py`).

The Python source is shallowly embedded:
* A Python `str` is a `List Char`; `str.isspace` on a single character is
  `pyIsspace`; Python indexing `text[i]` (which accepts negative indices and
  raises `IndexError` out of range) is `pyGet : List Char → Int → Option Char`.
* `string_violates_rule` returns `Option Bool`: `some b` models a normal
  return of the boolean `b`, `none` models an uncaught `IndexError`.
* The scanned container values (`str | List[Any] | Dict[Any, Any]` plus every
  other runtime type) are the inductive `Value`; `container_violates_rule`
  walks it exactly as the Python recursion does, propagating a raised
  exception as `none`.
-/

/-- `str.isspace()` restricted to a single character: true exactly for the
code points Python classifies as whitespace (Unicode White_Space plus the
bidirectional classes WS, B and S). -/
def pyIsspace (c : Char) : Bool :=
  decide (c.toNat ∈ ([0x9, 0xa, 0xb, 0xc, 0xd, 0x1c, 0x1d, 0x1e, 0x1f,
      0x20, 0x85, 0xa0, 0x1680, 0x2028, 0x2029, 0x202f, 0x205f, 0x3000] : List Nat)
    ∨ (0x2000 ≤ c.toNat ∧ c.toNat ≤ 0x200a))

/-- Python string indexing `text[i]`: a negative index wraps around by the
length of the string, an index out of `[-len, len)` raises `IndexError`
(modelled as `none`). -/
def pyGet (text : List Char) (i : Int) : Option Char :=
  if 0 ≤ i then text.get? i.toNat
  else if 0 ≤ i + text.length then text.get? (i + text.length).toNat
  else none

/-- Evaluation of the Python expression `not text[i].isspace()`:
`none` when the indexing raises. -/
def notSpaceAt (text : List Char) (i : Int) : Option Bool :=
  (pyGet text i).map fun ch => !pyIsspace ch

/-- The `for idx, chr in enumerate(text)` loop of `string_violates_rule`,
entered at position `idx` with `rest` the remaining characters
(`rest = text.drop idx` at every call site).  The three nested matches are
the three `if/elif` conditions of the source in order, with Python's
short-circuit evaluation of `and`/`or` made explicit: a condition that
raises `IndexError` aborts the whole call with `none`. -/
def svrLoop (text : List Char) : Nat → List Char → Option Bool
  | _, [] => some false
  | idx, c :: rest =>
    if c ≠ '|' then svrLoop text (idx + 1) rest
    else
      match (if idx = 0 then notSpaceAt text ((idx : Int) + 1) else some false) with
      | none => none
      | some true => some true
      | some false =>
        match (if idx = text.length - 1 then notSpaceAt text ((idx : Int) - 1) else some false) with
        | none => none
        | some true => some true
        | some false =>
          match notSpaceAt text ((idx : Int) - 1) with
          | none => none
          | some true => some true
          | some false =>
            match notSpaceAt text ((idx : Int) + 1) with
            | none => none
            | some true => some true
            | some false => svrLoop text (idx + 1) rest

/-- `string_violates_rule(text)` from the source: strings shorter than two
characters are accepted outright, otherwise every position is scanned. -/
def string_violates_rule (text : List Char) : Option Bool :=
  if text.length < 2 then some false else svrLoop text 0 text

/-- The scalar runtime values that are neither strings nor lists nor dicts:
the `return False` fallthrough of `container_violates_rule` treats them all
alike, but numbers, booleans and `None` are distinguished here so that the
claims about them can quantify over genuinely different inputs. -/
inductive Other where
  | int : Int → Other
  | bool : Bool → Other
  | null : Other
deriving DecidableEq

/-- A scanned value: Python `str | List[Any] | Dict[Any, Any]` plus any other
runtime type.  Dict entries keep their insertion order (Python dicts iterate
in insertion order) and their keys, which the rule never reads. -/
inductive Value where
  | text : List Char → Value
  | seq : List Value → Value
  | map : List (List Char × Value) → Value
  | other : Other → Value

mutual

/-- `container_violates_rule(container)` from the source: dispatch on the
runtime type, recursing through list elements and dict values; a raised
`IndexError` (from `string_violates_rule`) propagates as `none`. -/
def container_violates_rule : Value → Option Bool
  | .text s => string_violates_rule s
  | .seq l => cvrSeq l
  | .map entries => cvrMap entries
  | .other _ => some false

/-- `any(True for elem in container if container_violates_rule(elem))`:
the generator evaluates the recursive call on each element in order and
`any` stops consuming at the first `True`; an exception raised by a call
made before that point propagates. -/
def cvrSeq : List Value → Option Bool
  | [] => some false
  | v :: rest =>
    match container_violates_rule v with
    | none => none
    | some true => some true
    | some false => cvrSeq rest

/-- `any(True for _, value in container.items() if container_violates_rule(value))`:
as `cvrSeq`, over the dict's values in iteration order; keys are ignored. -/
def cvrMap : List (List Char × Value) → Option Bool
  | [] => some false
  | (_, v) :: rest =>
    match container_violates_rule v with
    | none => none
    | some true => some true
    | some false => cvrMap rest

end

/-- `FilterSurroundedBySpacesRule.matchtask(self, task, file=None)` from the
source: returns `container_violates_rule(task)`, never reading `file`.  The
`Lintable` type of `file` lives outside this repository fragment, so the
model is polymorphic over it. -/
def FilterSurroundedBySpacesRule.matchtask {α : Type}
    (task : List (List Char × Value)) (file : Option α) : Option Bool :=
  container_violates_rule (Value.map task)

/-- A stretch of the scan containing no pipe character is passed over
without returning and without touching any index. -/
theorem svrLoop_no_pipe (text : List Char) :
    ∀ (idx : Nat) (rest : List Char), '|' ∉ rest → svrLoop text idx rest = some false := by
  intro idx rest
  induction rest generalizing idx with
  | nil => intro _; rfl
  | cons c rest ih =>
    intro h
    have hc : c ≠ '|' := fun hq => h (hq ▸ List.mem_cons_self c rest)
    rw [svrLoop, if_pos hc]
    exact ih (idx + 1) (fun hm => h (List.mem_cons_of_mem c hm))

/-- Reading a nonempty list at its length minus one yields its last element. -/
theorem get?_pred_length (c : Char) (rest : List Char) :
    (c :: rest).get? rest.length = some ((c :: rest).getLast (List.cons_ne_nil c rest)) := by
  induction rest generalizing c with
  | nil => rfl
  | cons b rest ih =>
    rw [List.getLast_cons_cons]
    exact ih b

/-- For a string of length at least two starting with `'|'` followed by a
whitespace character and containing no other pipe, the scan returns the
negated whitespace test of the LAST character: Python's `text[idx - 1]` at
`idx = 0` is `text[-1]`, which wraps around to the end of the string. -/
theorem svr_leading_pipe_eval (c : Char) (rest : List Char) (hsp : pyIsspace c = true)
    (hnp : '|' ∉ c :: rest) :
    string_violates_rule ('|' :: c :: rest) =
      some (!pyIsspace ((c :: rest).getLast (List.cons_ne_nil c rest))) := by
  have hne : ¬ (('|' :: c :: rest).length < 2) := by
    simp only [List.length_cons]; omega
  have hD : ¬ ((0 : Nat) = ('|' :: c :: rest).length - 1) := by
    simp only [List.length_cons]; omega
  have hA : notSpaceAt ('|' :: c :: rest) ((0 : Int) + 1) = some false := by
    simp [notSpaceAt, pyGet, hsp]
  have hB : notSpaceAt ('|' :: c :: rest) ((0 : Int) - 1) =
      some (!pyIsspace ((c :: rest).getLast (List.cons_ne_nil c rest))) := by
    have ht : (((0 : Int) - 1) + (('|' :: c :: rest).length : Int)).toNat = rest.length + 1 := by
      simp only [List.length_cons]
      push_cast
      omega
    have hpos : (0 : Int) ≤ ((0 : Int) - 1) + (('|' :: c :: rest).length : Int) := by
      simp only [List.length_cons]
      push_cast
      omega
    rw [notSpaceAt, pyGet, if_neg (by omega), if_pos hpos, ht, List.get?_cons_succ,
      get?_pred_length]
    rfl
  have hC : svrLoop ('|' :: c :: rest) (0 + 1) (c :: rest) = some false :=
    svrLoop_no_pipe _ _ _ hnp
  rw [string_violates_rule, if_neg hne, svrLoop, if_neg (by simp), if_pos rfl]
  simp only [Nat.cast_zero]
  rw [hA, if_neg hD, hB, hC]
  cases hlast : pyIsspace ((c :: rest).getLast (List.cons_ne_nil c rest)) <;> rfl

example : string_violates_rule ['a', '|', 'b'] = some true := by decide
example : string_violates_rule ['|', ' ', 'b'] = some true := by decide
example : string_violates_rule ['a', ' ', '|'] = none := by decide
example : string_violates_rule ['|', ' '] = some false := by decide
example : string_violates_rule ['a', ' ', '|', ' ', 'b'] = some false := by decide
example : container_violates_rule
    (.seq [.text ['a', ' ', '|'], .text ['|', 'b']]) = none := by
  simp [container_violates_rule, cvrSeq, string_violates_rule, svrLoop, notSpaceAt, pyGet, pyIsspace]
example : container_violates_rule
    (.seq [.text ['|', 'b'], .text ['a', ' ', '|']]) = some true := by
  simp [container_violates_rule, cvrSeq, string_violates_rule, svrLoop, notSpaceAt, pyGet, pyIsspace]

/-- Scanning a dict looks only at the values, in entry order. -/
theorem cvrMap_eq_values :
    ∀ entries : List (List Char × Value), cvrMap entries = cvrSeq (entries.map Prod.snd) := by
  intro entries
  induction entries with
  | nil => rfl
  | cons e rest ih =>
    cases e with
    | mk k v =>
      simp only [cvrMap, List.map_cons, cvrSeq]
      rw [ih]

/-- Inserting a non-text scalar anywhere into a list leaves the scan of that
list unchanged. -/
theorem cvrSeq_insertIdx_other (o : Other) :
    ∀ (n : Nat) (l : List Value),
      cvrSeq (l.insertIdx n (.other o)) = cvrSeq l := by
  intro n
  induction n with
  | zero =>
    intro l
    rw [List.insertIdx_zero]
    simp only [cvrSeq, container_violates_rule]
  | succ n ih =>
    intro l
    cases l with
    | nil => rw [List.insertIdx_succ_nil]
    | cons v rest =>
      rw [List.insertIdx_succ_cons]
      simp only [cvrSeq]
      rw [ih rest]

/-- Inserting a dict entry whose value is a non-text scalar anywhere into a
dict leaves the scan of that dict unchanged. -/
theorem cvrMap_insertIdx_other (o : Other) (k : List Char) :
    ∀ (n : Nat) (entries : List (List Char × Value)),
      cvrMap (entries.insertIdx n (k, .other o)) = cvrMap entries := by
  intro n
  induction n with
  | zero =>
    intro entries
    rw [List.insertIdx_zero]
    simp only [cvrMap, container_violates_rule]
  | succ n ih =>
    intro entries
    cases entries with
    | nil => rw [List.insertIdx_succ_nil]
    | cons e rest =>
      cases e with
      | mk key v =>
        rw [List.insertIdx_succ_cons]
        simp only [cvrMap]
        rw [ih rest]

/-- C1: the checker is NOT total: on the string "a |" (last character a pipe
preceded by whitespace) the third branch evaluates `text[idx + 1]` one past
the end of the string and raises `IndexError`, modelled as `none`. -/
theorem string_violates_rule_raises_on_trailing_spaced_pipe :
    string_violates_rule ['a', ' ', '|'] = none := by decide

/-- C2: on "| b" (pipe at position 0 followed by whitespace, no other pipe)
the code returns `True`, not `False`: the fallthrough branch reads
`text[idx - 1] = text[-1]`, which wraps around to the last character 'b'. -/
theorem string_violates_rule_wraps_before_first_position :
    string_violates_rule ['|', ' ', 'b'] = some true := by decide

/-- C3 counterexample: `string_violates_rule("a|b")` is not `False`. -/
theorem string_violates_rule_interior_pipe_not_false :
    ¬ string_violates_rule ['a', '|', 'b'] = some false := by decide

/-- C3 amended: `string_violates_rule("a|b")` returns `True` (the interior
pipe has a non-whitespace character on each side). -/
theorem string_violates_rule_interior_pipe_true :
    string_violates_rule ['a', '|', 'b'] = some true := by decide

/-- C4: on a string whose final character is a pipe preceded by whitespace
and containing no other pipe, the code does not return `False`: it raises
`IndexError` (modelled `none`) by evaluating `text[idx + 1]` past the end. -/
theorem string_violates_rule_last_position_crash :
    string_violates_rule ['x', 'y', ' ', '|'] = none := by decide

/-- C5: the container scan is not the order-independent OR of the leaf
verdicts: the sequence ["a |", "|b"] raises `IndexError` on its first leaf,
while the permuted sequence ["|b", "a |"] short-circuits to `True`. -/
theorem container_violates_rule_order_dependent :
    container_violates_rule (.seq [.text ['a', ' ', '|'], .text ['|', 'b']]) = none ∧
    container_violates_rule (.seq [.text ['|', 'b'], .text ['a', ' ', '|']]) = some true := by
  constructor <;>
    simp [container_violates_rule, cvrSeq, string_violates_rule, svrLoop, notSpaceAt,
      pyGet, pyIsspace]

/-- C6: for a string of length at least 2 whose first character is '|'
immediately followed by whitespace and containing no other '|', the checker
returns true exactly when the string's LAST character is not whitespace: the
check of the character before position 0 wraps around to the end. -/
theorem string_violates_rule_leading_pipe_spaced (c : Char) (rest : List Char)
    (hsp : pyIsspace c = true) (hnp : '|' ∉ c :: rest) :
    (string_violates_rule ('|' :: c :: rest) = some true ↔
      pyIsspace ((c :: rest).getLast (List.cons_ne_nil c rest)) = false) := by
  rw [svr_leading_pipe_eval c rest hsp hnp]
  cases hq : pyIsspace ((c :: rest).getLast (List.cons_ne_nil c rest)) <;> simp

/-- C6 witness: instantiated at "| b", whose last character 'b' is not
whitespace. -/
theorem string_violates_rule_leading_pipe_spaced_witness :
    pyIsspace ' ' = true ∧ '|' ∉ ([' ', 'b'] : List Char) ∧
    (string_violates_rule ['|', ' ', 'b'] = some true ↔
      pyIsspace (([' ', 'b'] : List Char).getLast (List.cons_ne_nil ' ' ['b'])) = false) :=
  ⟨by decide, by decide,
    string_violates_rule_leading_pipe_spaced ' ' ['b'] (by decide) (by decide)⟩

/-- C7: values that are neither text nor list nor dict never violate: the
scan returns false on any such scalar, and inserting one (as a list element
or as a dict entry's value) at any position of any container leaves the
container's verdict unchanged. -/
theorem container_violates_rule_other_never_violates :
    (∀ o : Other, container_violates_rule (.other o) = some false) ∧
    (∀ (o : Other) (n : Nat) (l : List Value),
      container_violates_rule (.seq (l.insertIdx n (.other o))) =
        container_violates_rule (.seq l)) ∧
    (∀ (o : Other) (k : List Char) (n : Nat) (entries : List (List Char × Value)),
      container_violates_rule (.map (entries.insertIdx n (k, .other o))) =
        container_violates_rule (.map entries)) := by
  refine ⟨fun o => by simp only [container_violates_rule], fun o n l => ?_,
    fun o k n entries => ?_⟩
  · simp only [container_violates_rule]
    exact cvrSeq_insertIdx_other o n l
  · simp only [container_violates_rule]
    exact cvrMap_insertIdx_other o k n entries

/-- C8: any string of length strictly less than two is accepted. -/
theorem string_violates_rule_short_string (text : List Char) (h : text.length < 2) :
    string_violates_rule text = some false := by
  rw [string_violates_rule, if_pos h]

/-- C8 witness: instantiated at the single-character string "|". -/
theorem string_violates_rule_short_string_witness :
    (['|'] : List Char).length < 2 ∧ string_violates_rule ['|'] = some false :=
  ⟨by decide, string_violates_rule_short_string ['|'] (by decide)⟩

/-- C9: dict keys never influence the verdict: two dicts whose value lists
agree entrywise get the same verdict, whatever their keys. -/
theorem container_violates_rule_ignores_keys
    (l1 l2 : List (List Char × Value)) (h : l1.map Prod.snd = l2.map Prod.snd) :
    container_violates_rule (.map l1) = container_violates_rule (.map l2) := by
  simp only [container_violates_rule]
  rw [cvrMap_eq_values, cvrMap_eq_values, h]

/-- C9 witness: a key containing an unspaced pipe, "a|b", against a plain
key "k", over the same single value. -/
theorem container_violates_rule_ignores_keys_witness :
    ([(['a', '|', 'b'], Value.other .null)].map Prod.snd =
      [((['k'] : List Char), Value.other .null)].map Prod.snd) ∧
    container_violates_rule (.map [(['a', '|', 'b'], Value.other .null)]) =
      container_violates_rule (.map [((['k'] : List Char), Value.other .null)]) :=
  ⟨rfl, container_violates_rule_ignores_keys _ _ rfl⟩

/-- C10: the adapter's verdict depends only on the task: for any two values
of the optional `file` argument the result is the same, namely
`container_violates_rule` applied to the task mapping. -/
theorem matchtask_ignores_file (α : Type) (task : List (List Char × Value))
    (f1 f2 : Option α) :
    FilterSurroundedBySpacesRule.matchtask task f1 =
        FilterSurroundedBySpacesRule.matchtask task f2 ∧
    FilterSurroundedBySpacesRule.matchtask task f1 =
        container_violates_rule (Value.map task) :=
  ⟨rfl, rfl⟩
